import Mathlib

/-!
Verification of the wfh calendar CLI's authorization/token core.

The repository contains two near-duplicate revisions of `main.go`; the later
revision (the one with the CSRF-state check, `randomString`, `parseArgs`,
`shortEmail` and the embedded credentials) is taken as the program, and the
earlier revision is noted where it differs.  Go strings are Lean `String`,
the process file system is a partial map from paths to file contents, JSON
serialization (`encoding/json`) is modelled at the JSON data-model level,
and the `math/rand` generator is an arbitrary stream of draws.
-/

namespace Wfh

/-- The JSON data model, the value space of `encoding/json`. -/
inductive Json where
  | null
  | jbool (b : Bool)
  | num (n : Int)
  | str (s : String)
  | arr (elems : List Json)
  | obj (fields : List (String × Json))

/-- The four fields of `oauth2.Token` that the program persists
(struct tags `access_token`, `token_type`, `refresh_token`, `expiry`);
the expiry is carried as its RFC3339 rendering. -/
structure Token where
  accessToken : String
  tokenType : String
  refreshToken : String
  expiry : String
deriving DecidableEq

/-- `json.Marshal` of `oauth2.Token`: `access_token` and `expiry` are always
emitted; `token_type` and `refresh_token` carry `omitempty` and are dropped
when empty. -/
def encodeToken (t : Token) : Json :=
  Json.obj
    ([("access_token", Json.str t.accessToken)]
      ++ (if t.tokenType = "" then [] else [("token_type", Json.str t.tokenType)])
      ++ (if t.refreshToken = "" then [] else [("refresh_token", Json.str t.refreshToken)])
      ++ [("expiry", Json.str t.expiry)])

/-- Field lookup in a JSON object; with duplicate keys `encoding/json`
keeps the last value, so the lookup prefers the last occurrence. -/
def lookupField (fields : List (String × Json)) (k : String) : Option Json :=
  match fields with
  | [] => none
  | (k0, v) :: rest =>
    match lookupField rest k with
    | some v' => some v'
    | none => if k0 = k then some v else none

/-- Decoding one string field of the token record: a missing key leaves the
Go zero value `""`, a key bound to a non-string is a decode error. -/
def decodeStrField (fields : List (String × Json)) (k : String) : Except String String :=
  match lookupField fields k with
  | none => Except.ok ""
  | some (Json.str s) => Except.ok s
  | some _ => Except.error ("json: cannot unmarshal field " ++ k)

/-- `json.Decoder.Decode` into a fresh `&oauth2.Token{}`: the document must
be an object, unknown keys are ignored, known keys must bind strings. -/
def decodeToken (j : Json) : Except String Token :=
  match j with
  | Json.obj fields =>
    match decodeStrField fields "access_token", decodeStrField fields "token_type",
          decodeStrField fields "refresh_token", decodeStrField fields "expiry" with
    | Except.ok a, Except.ok ty, Except.ok r, Except.ok e => Except.ok ⟨a, ty, r, e⟩
    | Except.error e, _, _, _ => Except.error e
    | _, Except.error e, _, _ => Except.error e
    | _, _, Except.error e, _ => Except.error e
    | _, _, _, Except.error e => Except.error e
  | _ => Except.error "json: cannot unmarshal into Token"

/-- The file system visible to the program: each path is either absent or
holds one JSON document (token files are always JSON-level contents here;
a file that is not a well-formed token record is any document rejected by
`decodeToken`). -/
def FS : Type := String → Option Json

/-- `saveToken`: `os.Create` truncates/creates the file at `path`, then the
encoder writes the serialized token, overwriting whatever was there. -/
def saveToken (path : String) (token : Token) (fs : FS) : FS :=
  fun p => if p = path then some (encodeToken token) else fs p

/-- Outcome of `tokenFromFile`: the pair `(tok, err)` with the decode branch
calling `log.Fatalf`, which terminates the process. -/
inductive LoadResult where
  | ok (tok : Token)
  | openErr
  | fatal (msg : String)
deriving DecidableEq

/-- `tokenFromFile`: `os.Open` failure is returned to the caller as
`(nil, err)`; a decode failure hits `log.Fatalf("Unable to decode token: ...")`
and kills the process. -/
def tokenFromFile (file : String) (fs : FS) : LoadResult :=
  match fs file with
  | none => LoadResult.openErr
  | some j =>
    match decodeToken j with
    | Except.ok tok => LoadResult.ok tok
    | Except.error _ => LoadResult.fatal "Unable to decode token"

/-- Outcome of `getClient`: either an authorized service (with the flag
recording whether the missing-refresh-token warning was printed) or process
termination. `calendar.NewService` is an external collaborator modelled as
succeeding. -/
inductive GetClientOutcome where
  | authorized (warned : Bool) (tok : Token)
  | fatal (msg : String)
deriving DecidableEq

/-- `getClient`: try `tokenFromFile`; on an open error fall through to the
interactive web flow (whose resulting token is the `webTok` argument, since
`getTokenFromWeb` either returns a token or terminates the process); then
warn when the token in hand has an empty refresh token. -/
def getClient (fs : FS) (tokenPath : String) (webTok : Token) : GetClientOutcome :=
  match tokenFromFile tokenPath fs with
  | LoadResult.ok tok => GetClientOutcome.authorized (tok.refreshToken.length == 0) tok
  | LoadResult.openErr => GetClientOutcome.authorized (webTok.refreshToken.length == 0) webTok
  | LoadResult.fatal m => GetClientOutcome.fatal m

/-- Round-trip of the token codec: decoding the encoding restores every
field, including the `omitempty` ones. -/
theorem decodeToken_encodeToken (t : Token) : decodeToken (encodeToken t) = Except.ok t := by
  obtain ⟨a, ty, r, e⟩ := t
  by_cases hty : ty = "" <;> by_cases hr : r = "" <;>
    simp [encodeToken, decodeToken, decodeStrField, lookupField, hty, hr]

/-- A token file whose content is not a well-formed token record. -/
def badTokenFS : FS :=
  fun p => if p = "token.json" then some (Json.str "not a token record") else none

/-- A token file holding the token of spec scenario B (empty refresh token). -/
def scenarioBToken : Token :=
  ⟨"abc", "Bearer", "", "2020-01-01T00:00:00Z"⟩

/-- A placeholder outcome for the interactive web flow, used where the claim
only concerns the loaded-from-file path. -/
def webTok0 : Token :=
  ⟨"wa", "Bearer", "wr", "2030-01-01T00:00:00Z"⟩

/-- Claim C4: saving any token with `saveToken` and loading it back from the
same path with `tokenFromFile` restores a token equal in all four fields
(access_token, refresh_token, token_type, expiry), and the save overwrites
whatever file was previously at that path. -/
theorem save_then_load_roundtrip (path : String) (tok : Token) (fs : FS) :
    tokenFromFile path (saveToken path tok fs) = LoadResult.ok tok ∧
    (saveToken path tok fs) path = some (encodeToken tok) := by
  constructor
  · simp [tokenFromFile, saveToken, decodeToken_encodeToken]
  · simp [saveToken]

/-- Claim C3 fails on the code: a token file that exists but is malformed
does not lead to local recovery; `tokenFromFile` hits `log.Fatalf` and
`getClient` therefore terminates the process instead of re-authorizing. -/
theorem decode_failure_is_fatal_cex :
    tokenFromFile "token.json" badTokenFS = LoadResult.fatal "Unable to decode token" ∧
    getClient badTokenFS "token.json" webTok0 =
      GetClientOutcome.fatal "Unable to decode token" := by
  constructor <;> rfl

/-- Claim C3 (amended): when the token file exists but its content does not
decode as a token record, `tokenFromFile` terminates the process via
`log.Fatalf` ("Unable to decode token"), so `getClient` never reaches the
interactive re-authorization path; only an open failure is recovered. -/
theorem decode_failure_terminates (fs : FS) (path : String) (j : Json) (e : String)
    (hfile : fs path = some j) (hdec : decodeToken j = Except.error e) :
    tokenFromFile path fs = LoadResult.fatal "Unable to decode token" ∧
    ∀ w : Token, getClient fs path w = GetClientOutcome.fatal "Unable to decode token" := by
  have hload : tokenFromFile path fs = LoadResult.fatal "Unable to decode token" := by
    simp [tokenFromFile, hfile, hdec]
  refine ⟨hload, fun w => ?_⟩
  simp [getClient, hload]

/-- Witness for the amended C3 at a concrete malformed token file. -/
theorem decode_failure_terminates_witness :
    tokenFromFile "token.json" badTokenFS = LoadResult.fatal "Unable to decode token" := by
  exact (decode_failure_terminates badTokenFS "token.json"
    (Json.str "not a token record") "json: cannot unmarshal into Token" rfl rfl).1

/-- Claim C6: a token successfully loaded from file with an empty refresh
token yields the warning (warned flag) but the load does not fail and the
flow reaches the authorized state carrying that token. -/
theorem empty_refresh_warns_not_fatal (fs : FS) (path : String) (w t : Token)
    (hload : tokenFromFile path fs = LoadResult.ok t) (hempty : t.refreshToken = "") :
    getClient fs path w = GetClientOutcome.authorized true t := by
  simp [getClient, hload, hempty]

/-- Witness for C6: spec scenario B, a persisted token with an empty refresh
token loads fine and warns. -/
theorem empty_refresh_warns_not_fatal_witness :
    getClient (saveToken "token.json" scenarioBToken (fun _ => none)) "token.json" webTok0 =
      GetClientOutcome.authorized true scenarioBToken := by
  exact empty_refresh_warns_not_fatal _ _ _ _
    (by simp [tokenFromFile, saveToken, decodeToken_encodeToken]) rfl

/-- The alphabet of `randomString`: the Go constant
`letters = "abc...xyzABC...XYZ0123456789"`. -/
def letters : List Char :=
  "abcdefghijklmnopqrstuvwxyzABCDEFGHIJKLMNOPQRSTUVWXYZ0123456789".data

/-- `randomString(i)`: each output byte is `letters[rand.Intn(len(letters))]`.
The generator is an arbitrary stream `rand` of draws; `rand.Intn(n)` always
lies in `[0, n)`, rendered by the `% letters.length` reduction. -/
def randomString (n : Nat) (rand : Nat → Nat) : String :=
  String.mk ((List.range n).map (fun i => letters.getD (rand i % letters.length) 'a'))

/-- The CSRF state of one interactive flow instance: `state := randomString(16)`. -/
def webFlowState (rand : Nat → Nat) : String :=
  randomString 16 rand

/-- An incoming callback request, reduced to its two query parameters. -/
structure Request where
  code : String
  state : String
deriving DecidableEq

/-- The handler registered on `/`: read `code` and `state` from the query;
on a state mismatch write `Invalid state: ...` and return without touching
the channel; otherwise write the success page and offer the code for the
channel send.  The second component is the offered code (`none` = no send
attempted). -/
def callbackHandler (expected : String) (r : Request) : String × Option String :=
  let code := r.code
  let recvState := r.state
  if recvState ≠ expected then
    ("Invalid state: " ++ recvState ++ "\n", none)
  else
    ("Received authentication code. You can close this page now.\n", some code)

/-- The main flow's progress through the hand-off: blocked on the channel
receive, or resumed with the one received code. -/
inductive Phase where
  | awaitingCallback
  | exchanging (code : String)
deriving DecidableEq

/-- One callback request against the flow: an unbuffered channel send
succeeds only while the main flow is still blocked on its single receive
(`authCode := <-codeCh`); once the main flow has resumed, a later send
blocks forever in its handler goroutine and delivers nothing. -/
def flowStep (expected : String) (ph : Phase) (r : Request) : Phase × String :=
  match callbackHandler expected r with
  | (resp, none) => (ph, resp)
  | (resp, some c) =>
    match ph with
    | Phase.awaitingCallback => (Phase.exchanging c, resp)
    | Phase.exchanging c0 => (Phase.exchanging c0, resp)

/-- The flow under a whole sequence of callback requests. -/
def runFlow (expected : String) (ph : Phase) (rs : List Request) : Phase :=
  match rs with
  | [] => ph
  | r :: rest => runFlow expected (flowStep expected ph r).1 rest

/-- Number of channel deliveries (handler send paired with the main flow's
receive) over a request sequence. -/
def deliveries (expected : String) (ph : Phase) (rs : List Request) : Nat :=
  match rs with
  | [] => 0
  | r :: rest =>
    let next := (flowStep expected ph r).1
    (match ph, next with
     | Phase.awaitingCallback, Phase.exchanging _ => 1
     | _, _ => 0) + deliveries expected next rest

/-- The code of the first request whose state matches, the one the blocked
main flow would resume with. -/
def firstValidCode (expected : String) (rs : List Request) : Option String :=
  match rs with
  | [] => none
  | r :: rest => if r.state = expected then some r.code else firstValidCode expected rest

/-- Once the main flow has resumed, no callback moves it. -/
theorem flowStep_exchanging (expected : String) (c : String) (r : Request) :
    (flowStep expected (Phase.exchanging c) r).1 = Phase.exchanging c := by
  by_cases h : r.state = expected <;> simp [flowStep, callbackHandler, h]

/-- Once resumed, the flow stays resumed with the same code over any
further requests. -/
theorem runFlow_exchanging (expected : String) (c : String) (rs : List Request) :
    runFlow expected (Phase.exchanging c) rs = Phase.exchanging c := by
  induction rs with
  | nil => rfl
  | cons r rest ih => simp [runFlow, flowStep_exchanging, ih]

/-- After resuming, no further deliveries happen. -/
theorem deliveries_exchanging (expected : String) (c : String) (rs : List Request) :
    deliveries expected (Phase.exchanging c) rs = 0 := by
  induction rs with
  | nil => rfl
  | cons r rest ih => simp [deliveries, flowStep_exchanging, ih]

/-- Claim C1: a callback whose state differs from the flow's CSRF state gets
the error page, offers no code to the channel, and leaves the flow blocked
in AwaitingCallback. -/
theorem state_mismatch_no_delivery (expected : String) (r : Request)
    (h : r.state ≠ expected) :
    callbackHandler expected r = ("Invalid state: " ++ r.state ++ "\n", none) ∧
    flowStep expected Phase.awaitingCallback r =
      (Phase.awaitingCallback, "Invalid state: " ++ r.state ++ "\n") := by
  constructor
  · simp [callbackHandler, h]
  · simp [flowStep, callbackHandler, h]

/-- Witness for C1: spec scenario D, a callback with `state=WRONG` against a
flow whose state is `S1`. -/
theorem state_mismatch_no_delivery_witness :
    callbackHandler "S1" ⟨"XYZ", "WRONG"⟩ = ("Invalid state: WRONG\n", none) := by
  exact (state_mismatch_no_delivery "S1" ⟨"XYZ", "WRONG"⟩ (by decide)).1

/-- Claim C5: the hand-off delivers at most one code; if the main flow
resumes it resumes with the first valid code, and once resumed no later
callback re-triggers anything. -/
theorem single_delivery (expected : String) (rs : List Request) (c : String)
    (h : runFlow expected Phase.awaitingCallback rs = Phase.exchanging c) :
    firstValidCode expected rs = some c ∧
    deliveries expected Phase.awaitingCallback rs ≤ 1 ∧
    ∀ more : List Request, runFlow expected (Phase.exchanging c) more = Phase.exchanging c := by
  refine ⟨?_, ?_, fun more => runFlow_exchanging expected c more⟩
  · induction rs with
    | nil => exact absurd h (by simp [runFlow])
    | cons r rest ih =>
      by_cases hs : r.state = expected
      · have hstep : (flowStep expected Phase.awaitingCallback r).1 = Phase.exchanging r.code := by
          simp [flowStep, callbackHandler, hs]
        have : runFlow expected Phase.awaitingCallback (r :: rest) = Phase.exchanging r.code := by
          simp [runFlow, hstep, runFlow_exchanging]
        rw [this] at h
        cases h
        simp [firstValidCode, hs]
      · have hstep : (flowStep expected Phase.awaitingCallback r).1 = Phase.awaitingCallback := by
          simp [flowStep, callbackHandler, hs]
        rw [runFlow, hstep] at h
        simpa [firstValidCode, hs] using ih h
  · induction rs with
    | nil => simp [deliveries]
    | cons r rest ih =>
      by_cases hs : r.state = expected
      · have hstep : (flowStep expected Phase.awaitingCallback r).1 = Phase.exchanging r.code := by
          simp [flowStep, callbackHandler, hs]
        simp [deliveries, hstep, deliveries_exchanging]
      · have hstep : (flowStep expected Phase.awaitingCallback r).1 = Phase.awaitingCallback := by
          simp [flowStep, callbackHandler, hs]
        rw [runFlow, hstep] at h
        simpa [deliveries, hstep] using ih h

/-- Witness for C5: a valid callback followed by a duplicate; the flow
resumes once, with the first code. -/
theorem single_delivery_witness :
    firstValidCode "S1" [⟨"XYZ", "S1"⟩, ⟨"ABC", "S1"⟩] = some "XYZ" ∧
    deliveries "S1" Phase.awaitingCallback [⟨"XYZ", "S1"⟩, ⟨"ABC", "S1"⟩] ≤ 1 := by
  have h := single_delivery "S1" [⟨"XYZ", "S1"⟩, ⟨"ABC", "S1"⟩] "XYZ" (by decide)
  exact ⟨h.1, h.2.1⟩

/-- The OAuth2 client configuration fields used by the flow
(from the parsed credentials artifact). -/
structure OAuthConfig where
  clientID : String
  clientSecret : String
  authEndpoint : String
  tokenEndpoint : String
  scope : String

/-- First-match lookup in a query-parameter list. -/
def queryLookup (q : List (String × String)) (k : String) : Option String :=
  match q with
  | [] => none
  | (k0, v) :: rest => if k0 = k then some v else queryLookup rest k

/-- Modelled from the spec: the external oauth2 library's `AuthCodeURL`
assembles the standard authorization-code-grant query (`response_type=code`,
`client_id`, `scope`, `state`) and appends each option; `AccessTypeOffline`
is `access_type=offline` and `SetAuthURLParam(k, v)` is the pair `(k, v)`. -/
def authCodeURLQuery (cfg : OAuthConfig) (state : String)
    (extra : List (String × String)) : List (String × String) :=
  [("response_type", "code"), ("client_id", cfg.clientID),
   ("scope", cfg.scope), ("state", state)] ++ extra

/-- The authorization URL built by `getTokenFromWeb`:
`config.AuthCodeURL(state, oauth2.AccessTypeOffline,
oauth2.SetAuthURLParam("redirect_uri", "http://localhost:8066/"))`. -/
def webFlowAuthQuery (cfg : OAuthConfig) (rand : Nat → Nat) : List (String × String) :=
  authCodeURLQuery cfg (webFlowState rand)
    [("access_type", "offline"), ("redirect_uri", "http://localhost:8066/")]

/-- Modelled from the spec: the token-endpoint request of `config.Exchange`
carries `grant_type=authorization_code`, the code, the client identity and
each extra option; the call site passes
`oauth2.SetAuthURLParam("redirect_uri", "http://localhost:8066/")`. -/
def exchangeQuery (cfg : OAuthConfig) (code : String) : List (String × String) :=
  [("grant_type", "authorization_code"), ("code", code),
   ("client_id", cfg.clientID)] ++ [("redirect_uri", "http://localhost:8066/")]

/-- Membership in a list at a position below its length, for the `getD`
indexing of `randomString`. -/
theorem getD_mem_of_lt {α : Type} (l : List α) (k : Nat) (d : α) (h : k < l.length) :
    l.getD k d ∈ l := by
  rw [List.getD_eq_getElem?_getD, List.getElem?_eq_getElem h]
  exact List.getElem_mem h

/-- Claim C2: the state embedded in the authorization URL is exactly the
flow's generated `randomString 16` value, it is also the value the callback
handler compares against, and it has length 16 with every character drawn
from `[A-Za-z0-9]`. -/
theorem csrf_state_shape (cfg : OAuthConfig) (rand : Nat → Nat) :
    queryLookup (webFlowAuthQuery cfg rand) "state" = some (webFlowState rand) ∧
    (webFlowState rand).length = 16 ∧
    (∀ c ∈ (webFlowState rand).data, c ∈ letters) ∧
    (∀ r : Request, r.state ≠ webFlowState rand →
      (callbackHandler (webFlowState rand) r).2 = none) := by
  refine ⟨rfl, ?_, ?_, ?_⟩
  · simp [webFlowState, randomString, String.length]
  · intro c hc
    simp only [webFlowState, randomString, String.mk, List.mem_map, List.mem_range] at hc
    obtain ⟨i, _, rfl⟩ := hc
    exact getD_mem_of_lt letters _ 'a'
      (Nat.mod_lt _ (by simp [letters]))
  · intro r h
    simp [callbackHandler, h]

/-- Witness for C2 at the constant generator: the state is sixteen copies of
the first alphabet letter, in the URL and in the handler comparison. -/
theorem csrf_state_shape_witness :
    webFlowState (fun _ => 0) = "aaaaaaaaaaaaaaaa" ∧
    (webFlowState (fun _ => 0)).length = 16 ∧
    'a' ∈ letters ∧
    (callbackHandler (webFlowState (fun _ => 0)) ⟨"XYZ", "WRONG"⟩).2 = none := by
  have h := csrf_state_shape ⟨"id", "sec", "a", "t", "s"⟩ (fun _ => 0)
  refine ⟨by decide, h.2.1, ?_, ?_⟩
  · exact h.2.2.1 'a' (by decide)
  · exact h.2.2.2 ⟨"XYZ", "WRONG"⟩ (by decide)

/-- Claim C7: the `redirect_uri` sent with the token exchange equals the
`redirect_uri` embedded in the authorization URL, both being the fixed
local URI `http://localhost:8066/`. -/
theorem redirect_uri_matches (cfg : OAuthConfig) (rand : Nat → Nat) (code : String) :
    queryLookup (webFlowAuthQuery cfg rand) "redirect_uri" = some "http://localhost:8066/" ∧
    queryLookup (exchangeQuery cfg code) "redirect_uri" = some "http://localhost:8066/" := by
  exact ⟨rfl, rfl⟩

/-- Outcome of the tail of `getTokenFromWeb` after the code is received. -/
inductive WebOutcome where
  | ok (tok : Token)
  | fatal (msg : String)
deriving DecidableEq

/-- The tail of `getTokenFromWeb`: `config.Exchange` either yields a token
or an error; on error `log.Fatalf("Unable to retrieve token from web: ...")`
terminates the process before `saveToken` is ever reached; on success the
token is saved.  The external exchange outcome is the first argument. -/
def getTokenFromWebExchange (exchangeResult : Except String Token)
    (tokenPath : String) (fs : FS) : FS × WebOutcome :=
  match exchangeResult with
  | Except.error _ => (fs, WebOutcome.fatal "Unable to retrieve token from web")
  | Except.ok tok => (saveToken tokenPath tok fs, WebOutcome.ok tok)

/-- Claim C8: a failed code exchange terminates the flow fatally with the
diagnostic, without invoking `saveToken`: the file system (hence the
persisted token file) is returned unchanged, and there is no retry. -/
theorem exchange_failure_fatal_no_save (e : String) (tokenPath : String) (fs : FS) :
    getTokenFromWebExchange (Except.error e) tokenPath fs =
      (fs, WebOutcome.fatal "Unable to retrieve token from web") := by
  rfl

/-- A calendar date, the value of a parsed `--date` flag. -/
structure Date where
  year : Nat
  month : Nat
  day : Nat
deriving DecidableEq

/-- The Gregorian leap-year rule used by Go's `time` package. -/
def isLeapYear (y : Nat) : Bool :=
  y % 4 == 0 && (y % 100 != 0 || y % 400 == 0)

/-- Days in a month, as validated by `time.Parse`. -/
def daysInMonth (y m : Nat) : Nat :=
  if m = 2 then (if isLeapYear y then 29 else 28)
  else if m = 4 ∨ m = 6 ∨ m = 9 ∨ m = 11 then 30
  else 31

/-- Numeric value of a digit sequence. -/
def digitsToNat (cs : List Char) : Nat :=
  cs.foldl (fun acc c => acc * 10 + (c.toNat - '0'.toNat)) 0

/-- `time.Parse("2006-01-02", s)`: exactly four digits, a dash, two digits,
a dash, two digits, no trailing text, with the month and day ranges
validated against the calendar. -/
def parseDate (s : String) : Option Date :=
  match s.data with
  | [y1, y2, y3, y4, h1, m1, m2, h2, d1, d2] =>
    if y1.isDigit && y2.isDigit && y3.isDigit && y4.isDigit && h1 == '-' &&
       m1.isDigit && m2.isDigit && h2 == '-' && d1.isDigit && d2.isDigit then
      let y := digitsToNat [y1, y2, y3, y4]
      let m := digitsToNat [m1, m2]
      let d := digitsToNat [d1, d2]
      if 1 ≤ m ∧ m ≤ 12 ∧ 1 ≤ d ∧ d ≤ daysInMonth y m then some ⟨y, m, d⟩ else none
    else none
  | _ => none

/-- `parseArgs`: after `flag.Parse`, reject leftover non-flag arguments,
fall back to today when `--date` is absent or unparsable, return early for
`--list`, and otherwise resolve the message from the flag or the config
default.  The parsed flag values and today's clock reading are arguments. -/
def parseArgs (dateFlag messageFlag : String) (listFlag : Bool) (args : List String)
    (defaultMessage : String) (today : Date) : Except String (Bool × Date × String) :=
  if args.length > 0 then
    Except.error "unexpected non-flag arguments detected"
  else
    let parsedDate :=
      if dateFlag ≠ "" then
        match parseDate dateFlag with
        | some d => d
        | none => today
      else today
    if listFlag then
      Except.ok (true, parsedDate, "")
    else
      let message := if messageFlag ≠ "" then messageFlag else defaultMessage
      Except.ok (false, parsedDate, message)

/-- Claim C9: a non-empty `--date` value that does not parse as YYYY-MM-DD
is silently replaced by today's date with a nil error, and `parseArgs`
errors exactly when non-flag arguments are present. -/
theorem bad_date_falls_back_to_today (dateFlag messageFlag : String) (listFlag : Bool)
    (defaultMessage : String) (today : Date)
    (hne : dateFlag ≠ "") (hbad : parseDate dateFlag = none) :
    parseArgs dateFlag messageFlag listFlag [] defaultMessage today =
      Except.ok (listFlag, today,
        if listFlag then "" else if messageFlag ≠ "" then messageFlag else defaultMessage) ∧
    ∀ args : List String,
      (∃ e, parseArgs dateFlag messageFlag listFlag args defaultMessage today =
        Except.error e) ↔ args ≠ [] := by
  constructor
  · cases listFlag <;> simp [parseArgs, hne, hbad]
  · intro args
    constructor
    · rintro ⟨e, he⟩ rfl
      cases listFlag <;> simp [parseArgs, hne, hbad] at he
    · intro hargs
      refine ⟨"unexpected non-flag arguments detected", ?_⟩
      have : args.length > 0 := List.length_pos.mpr hargs
      simp [parseArgs, this]

/-- Witness for C9: `--date 2023-13-45` (month out of range) with no
positional arguments yields today's date and no error; a positional
argument yields an error. -/
theorem bad_date_falls_back_to_today_witness :
    parseArgs "2023-13-45" "" false [] "wfh" ⟨2026, 10, 12⟩ =
      Except.ok (false, ⟨2026, 10, 12⟩, "wfh") ∧
    (∃ e, parseArgs "2023-13-45" "" false ["stray"] "wfh" ⟨2026, 10, 12⟩ =
      Except.error e) := by
  have h := bad_date_falls_back_to_today "2023-13-45" "" false "wfh" ⟨2026, 10, 12⟩
    (by decide) (by decide)
  exact ⟨h.1, (h.2 ["stray"]).mpr (by decide)⟩

/-- The loop of `shortEmail`: the index of the first `@`, defaulting to the
length of the string when absent (`atIndex := len(email)`). -/
def atIndexOf (email : List Char) : Nat :=
  match email with
  | [] => 0
  | c :: rest => if c = '@' then 0 else 1 + atIndexOf rest

/-- `shortEmail`: slice the string up to (excluding) the first `@`. -/
def shortEmail (email : String) : String :=
  String.mk (email.data.take (atIndexOf email.data))

/-- The slice index never exceeds the length. -/
theorem atIndexOf_le_length (l : List Char) : atIndexOf l ≤ l.length := by
  induction l with
  | nil => simp [atIndexOf]
  | cons c rest ih =>
    by_cases h : c = '@'
    · simp [atIndexOf, h]
    · simp [atIndexOf, h]
      omega

/-- The slice is the longest `@`-free leading segment. -/
theorem take_atIndexOf (l : List Char) :
    l.take (atIndexOf l) = l.takeWhile (fun c => c != '@') := by
  induction l with
  | nil => rfl
  | cons c rest ih =>
    by_cases h : c = '@'
    · simp [atIndexOf, h, List.takeWhile]
    · have hb : (c != '@') = true := by simp [bne_iff_ne, h]
      simp [atIndexOf, h, List.takeWhile, hb, Nat.add_comm 1 (atIndexOf rest),
        List.take_succ_cons, ih]

/-- An `@`-free list is its own `@`-free leading segment. -/
theorem takeWhile_no_at (l : List Char) (h : '@' ∉ l) :
    l.takeWhile (fun c => c != '@') = l := by
  induction l with
  | nil => rfl
  | cons c rest ih =>
    simp only [List.mem_cons, not_or] at h
    have hb : (c != '@') = true := by simp [bne_iff_ne]; exact fun hc => h.1 hc.symm
    simp [List.takeWhile, hb, ih h.2]

/-- Claim C10: `shortEmail` is total and slices within bounds: its slice
index is at most the string length, its value is the prefix of the string
up to (excluding) the first `@`, and a string without `@` is returned
unchanged. -/
theorem shortEmail_safe (email : String) :
    atIndexOf email.data ≤ email.length ∧
    (shortEmail email).data = email.data.takeWhile (fun c => c != '@') ∧
    ('@' ∉ email.data → shortEmail email = email) := by
  refine ⟨atIndexOf_le_length email.data, ?_, ?_⟩
  · simp [shortEmail, take_atIndexOf]
  · intro h
    cases email with
    | mk data =>
      simp only [shortEmail, take_atIndexOf]
      exact congrArg String.mk (takeWhile_no_at data h)

/-- Witness for C10 at concrete inputs, with and without an `@`. -/
theorem shortEmail_safe_witness :
    (shortEmail "user@example.com").data =
      ("user@example.com" : String).data.takeWhile (fun c => c != '@') ∧
    shortEmail "nobody" = "nobody" := by
  exact ⟨(shortEmail_safe "user@example.com").2.1,
    (shortEmail_safe "nobody").2.2 (by decide)⟩

end Wfh
